import Mathlib

/-!
Verification of the icon-resolution pipeline of react-native-iconify.

The definitions below are a shallow embedding of the TypeScript / Kotlin
sources of the repository:

* `src/packages/api/src/loader.ts` — `parseIconData`, `extractIconFromResponse`,
  `fetchFromHost`, `fetchIconData` (the redundant multi-host fetcher);
* `src/src/cache/index.ts` and `src/src/cache/native.ts` — the `TurboCache`
  JavaScript wrapper over the native persistent cache;
* `src/unnamed/part_001` — the Android `TurboCacheModule` (Kotlin), the
  persistent key/value store with per-entry TTL;
* `src/unnamed/part_014` — the `IconifyIcon` component's `loadIconData`
  resolution flow (embedded bundle → persistent cache → network);
* `src/scripts/scan-icons.js` — the static usage scanner;
* `src/packages/turbo-cache/src/cache.ts` — the in-memory LRU `MemoryCache`.

JavaScript numbers are modelled as `Int`, JavaScript `Map`s and the on-disk
key/value store as association lists, asynchronous effects as explicit request
counters and state threading, and promise rejection as `Except`/`Option`
results.
-/

namespace Iconify

/-- Error codes of `IconifyAPIError` (src/src/api/types.ts). -/
inductive ErrorCode where
  | NETWORK_ERROR
  | TIMEOUT
  | INVALID_RESPONSE
  | NOT_FOUND
  | PARSE_ERROR
  deriving DecidableEq, Repr

/-- `IconData` (src/src/api/types.ts): a fully resolved icon.  Optional
JavaScript fields are `Option`s. -/
structure IconData where
  name : String
  body : String
  width : Int
  height : Int
  left : Option Int := none
  top : Option Int := none
  rotate : Option Int := none
  hFlip : Option Bool := none
  vFlip : Option Bool := none
  deriving DecidableEq, Repr

/-- `Partial<IconData>` as it appears in `IconifyAPIResponse.icons`:
every field may be absent. -/
structure RawIcon where
  body : Option String := none
  width : Option Int := none
  height : Option Int := none
  left : Option Int := none
  top : Option Int := none
  rotate : Option Int := none
  hFlip : Option Bool := none
  vFlip : Option Bool := none
  deriving DecidableEq, Repr

/-- An alias object of a collection response.  The declared TypeScript type is
`{ parent: string } | string`; at runtime the Iconify API additionally sends
transform-override fields on the object, which the loader code may or may not
consult, so they are part of the model. -/
structure AliasObj where
  parent : String
  rotate : Option Int := none
  hFlip : Option Bool := none
  vFlip : Option Bool := none
  left : Option Int := none
  top : Option Int := none
  deriving DecidableEq, Repr

/-- One entry of the `aliases` map: either a bare string or an alias object. -/
inductive AliasEntry where
  | str (s : String)
  | obj (o : AliasObj)
  deriving DecidableEq, Repr

/-- `IconifyAPIResponse` (src/src/api/types.ts): one collection's payload.
`prefixStr` models the `prefix` field.  The `icons` and `aliases` maps are
association lists. -/
structure APIResponse where
  prefixStr : String
  icons : List (String × RawIcon)
  aliases : Option (List (String × AliasEntry)) := none
  width : Option Int := none
  height : Option Int := none
  left : Option Int := none
  top : Option Int := none
  rotate : Option Int := none
  hFlip : Option Bool := none
  vFlip : Option Bool := none
  deriving DecidableEq, Repr

/-- Split a character list at every occurrence of `sep`, modelling
JavaScript's `String.prototype.split` with a single-character separator. -/
def splitOnChar (sep : Char) : List Char → List (List Char)
  | [] => [[]]
  | a :: rest =>
    match splitOnChar sep rest with
    | [] => if a = sep then [[], []] else [[a]]
    | h :: t => if a = sep then [] :: h :: t else (a :: h) :: t

/-- `iconName.split(':')` of the TypeScript sources. -/
def splitIconName (s : String) : List String :=
  (splitOnChar ':' s.data).map fun l => ⟨l⟩

/-- The merged record handed to `parseIconData` by `extractIconFromResponse`
(loader.ts line 112): `body`, `width` and `height` are always present there
(the merge supplies `''` resp. `0` defaults), the transform fields may be
absent. -/
structure MergedIcon where
  name : String
  body : String
  width : Int
  height : Int
  left : Option Int := none
  top : Option Int := none
  rotate : Option Int := none
  hFlip : Option Bool := none
  vFlip : Option Bool := none
  deriving DecidableEq, Repr

/-- `parseIconData` (loader.ts lines 11–70) on an already-merged record: the
`body` must be a non-empty string and the dimensions positive, otherwise the
icon fails with `PARSE_ERROR`; optional fields are copied when present. -/
def parseIconData (d : MergedIcon) : Except ErrorCode IconData :=
  if d.body = "" then .error .PARSE_ERROR
  else if d.width ≤ 0 then .error .PARSE_ERROR
  else if d.height ≤ 0 then .error .PARSE_ERROR
  else .ok
    { name := d.name, body := d.body, width := d.width, height := d.height
      left := d.left, top := d.top, rotate := d.rotate
      hFlip := d.hFlip, vFlip := d.vFlip }

/-- `extractIconFromResponse` (loader.ts lines 78–126): split the identifier,
follow a `{parent}` alias (only its `parent` field is read), look the resolved
name up in `icons`, merge the raw icon with the collection-level defaults
using `??`, and validate via `parseIconData`. -/
def extractIconFromResponse (response : APIResponse) (iconName : String) :
    Except ErrorCode IconData :=
  match splitIconName iconName with
  | [_p, name] =>
    let resolvedName :=
      match response.aliases with
      | some al =>
        match al.lookup name with
        | some (.obj o) => if o.parent = "" then name else o.parent
        | _ => name
      | none => name
    match response.icons.lookup resolvedName with
    | none => .error .NOT_FOUND
    | some rawIcon =>
      parseIconData
        { name := iconName
          body := rawIcon.body.getD ""
          width := (rawIcon.width.or response.width).getD 0
          height := (rawIcon.height.or response.height).getD 0
          left := rawIcon.left.or response.left
          top := rawIcon.top.or response.top
          rotate := rawIcon.rotate.or response.rotate
          hFlip := rawIcon.hFlip.or response.hFlip
          vFlip := rawIcon.vFlip.or response.vFlip }
  | _ => .error .PARSE_ERROR

/-! ### The redundant multi-host fetcher (loader.ts lines 286–394)

A single HTTP attempt is abstracted as an `HttpOutcome`; a host's behaviour is
a function from the attempt number to the outcome of that attempt.  Request
counts are threaded explicitly; backoff delays do not affect the control flow
and are not modelled. -/

/-- The observable outcome of one HTTP request. -/
inductive HttpOutcome where
  /-- The server answered with `status`; `body` is the parsed JSON body, or
  `none` when the body is not valid JSON. -/
  | response (status : Nat) (body : Option APIResponse)
  /-- The transport failed. -/
  | netError
  /-- The attempt timed out (`fetchWithTimeout` aborts). -/
  | timeout
  deriving DecidableEq

/-- A host's behaviour: the outcome of each attempt against it, by attempt
number. -/
def HostBehavior : Type := Nat → HttpOutcome

/-- `fetchFromHost` (loader.ts lines 286–330): classify one request's outcome.
A non-2xx status is `NOT_FOUND` when it is 404 and `NETWORK_ERROR` otherwise;
an unparseable 2xx body is `INVALID_RESPONSE`; transport failure and timeout
map to `NETWORK_ERROR` and `TIMEOUT`. -/
def fetchFromHost (o : HttpOutcome) : Except ErrorCode APIResponse :=
  match o with
  | .netError => .error .NETWORK_ERROR
  | .timeout => .error .TIMEOUT
  | .response status body =>
    if 200 ≤ status ∧ status ≤ 299 then
      match body with
      | some data => .ok data
      | none => .error .INVALID_RESPONSE
    else if status = 404 then .error .NOT_FOUND
    else .error .NETWORK_ERROR

/-- The per-host retry loop of `fetchIconData` (loader.ts lines 354–385):
attempt up to `fuel` times; a `NOT_FOUND` or `PARSE_ERROR` classification is
terminal for the whole operation (`some (.error c)`), success is terminal
(`some (.ok data)`), and exhausting the retries yields `none` (fall through to
the next host).  Returns the number of requests issued on this host. -/
def tryHost (h : HostBehavior) : Nat → Nat → Nat × Option (Except ErrorCode APIResponse)
  | 0, _ => (0, none)
  | fuel + 1, attempt =>
    match fetchFromHost (h attempt) with
    | .ok data => (1, some (.ok data))
    | .error c =>
      if c = .NOT_FOUND ∨ c = .PARSE_ERROR then (1, some (.error c))
      else
        let r := tryHost h fuel (attempt + 1)
        (r.1 + 1, r.2)

/-- The host-priority loop of `fetchIconData` (loader.ts lines 353–393): try
each host in order with `maxRetries` attempts; when every host is exhausted
the aggregated failure is a `NETWORK_ERROR`.  Returns the total number of
requests issued. -/
def fetchHosts : List HostBehavior → Nat → Nat × Except ErrorCode APIResponse
  | [], _ => (0, .error .NETWORK_ERROR)
  | h :: rest, maxRetries =>
    match tryHost h maxRetries 0 with
    | (n, some r) => (n, r)
    | (n, none) =>
      let r := fetchHosts rest maxRetries
      (n + r.1, r.2)

/-- `fetchIconData` (loader.ts lines 338–394): parse the identifier
(`PARSE_ERROR` when it does not split into exactly two parts, with no request
issued), then run the host loop.  `hosts` and `maxRetries` stand for the
resolved configuration (the defaults are three hosts and `maxRetries = 3`). -/
def fetchIconData (iconName : String) (hosts : List HostBehavior) (maxRetries : Nat) :
    Nat × Except ErrorCode APIResponse :=
  if (splitIconName iconName).length = 2 then fetchHosts hosts maxRetries
  else (0, .error .PARSE_ERROR)

/-! ### The native persistent cache module (src/unnamed/part_001, Kotlin)

`TurboCacheModule` stores one file per sanitized key; a file holds a value
plus an optional absolute expiry timestamp.  The directory of files is an
association list from sanitized key to `CacheData`; the current time is an
explicit `now` argument (milliseconds). -/

/-- The Kotlin `CacheData(value, expiresAt)` wrapper written to each cache
file. -/
structure CacheData (α : Type) where
  value : α
  expiresAt : Option Int
  deriving DecidableEq, Repr

/-- `CacheData.isExpired()`: expired iff an expiry is present and strictly in
the past. -/
def cdIsExpired (c : CacheData α) (now : Int) : Bool :=
  match c.expiresAt with
  | some e => now > e
  | none => false

/-- `sanitizeKey` (part_001 line 203): every character outside
`[a-zA-Z0-9-_.]` becomes an underscore. -/
def sanitizeKey (k : String) : String :=
  ⟨k.data.map fun c =>
    if c.isAlphanum || c = '-' || c = '_' || c = '.' then c else '_'⟩

/-- The on-disk store: sanitized file name to file content. -/
abbrev NativeStore (α : Type) : Type := List (String × CacheData α)

/-- `TurboCacheModule.getValue` (part_001 lines 60–84): missing file resolves
`null`; an expired entry is deleted and resolves `null`; otherwise the stored
value is returned.  The updated store is returned alongside the result. -/
def moduleGetValue (store : NativeStore α) (key : String) (now : Int) :
    NativeStore α × Option α :=
  let file := sanitizeKey key
  match store.lookup file with
  | none => (store, none)
  | some c =>
    if cdIsExpired c now then
      (store.filter fun p => p.1 ≠ file, none)
    else
      (store, some c.value)

/-- `TurboCacheModule.setValue` (part_001 lines 89–108): a positive TTL is
turned into an absolute `expiresAt = now + ttl`; a missing or non-positive TTL
stores no expiry.  Writing overwrites any previous file for the key. -/
def moduleSetValue (store : NativeStore α) (key : String) (v : α)
    (ttl : Option Int) (now : Int) : NativeStore α :=
  let file := sanitizeKey key
  let expiresAt : Option Int :=
    match ttl with
    | some t => if t > 0 then some (now + t) else none
    | none => none
  (file, ⟨v, expiresAt⟩) :: (store.filter fun p => p.1 ≠ file)

/-- `TurboCacheModule.getSize` (part_001 lines 143–153) sums the lengths of
the cache files; a file's length is modelled as the length of its stored
value (the serialization wrapper adds only per-file constants, which do not
affect how removals are reflected). -/
def moduleGetSize (store : NativeStore String) : Nat :=
  (store.map fun p => p.2.value.length).sum

/-! ### The `IconifyIcon` resolution flow (src/unnamed/part_014)

`loadIconData` resolves an identifier through three tiers: the embedded
bundle (synchronous), the native persistent cache via `TurboCache`, and the
network via `loadIcon`.  The JavaScript value stored in the native cache is a
JSON string; a stored string either parses back to an icon (`good`) or is
corrupt.  Cancellation is observed at the two suspension points: `c1` is the
value of the `cancelled` flag at the checks following the cache read, `c2` its
value at the checks following the network fetch / cache write. -/

/-- What a stored cache value deserializes to on the JavaScript side. -/
inductive StoredVal where
  | good (d : IconData)
  | corrupt
  deriving DecidableEq, Repr

/-- `TurboCache.get` (src/src/cache/index.ts lines 42–55) on top of
`NativeDiskCache.get` (src/src/cache/native.ts lines 66–90): a native-facility
rejection (`nativeFails`) or a corrupt stored value raises a `CacheError`,
which `TurboCache.get` catches and converts to `null` — i.e. a miss. -/
def turboCacheGet (store : NativeStore StoredVal) (key : String) (now : Int)
    (nativeFails : Bool) : NativeStore StoredVal × Option IconData :=
  if nativeFails then (store, none)
  else
    match moduleGetValue store key now with
    | (store', none) => (store', none)
    | (store', some (.good d)) => (store', some d)
    | (store', some .corrupt) => (store', none)

/-- `getCacheKey` (part_014 line 86). -/
def componentCacheKey (iconName : String) : String :=
  "icon:" ++ iconName

/-- The observable outcome of one run of the component's load flow: the final
`iconData` / error state, the side effects applied at each phase, the number
of cache/network operations, and the resulting native store.

Effects are split by the cancellation check that guards them: `p1` effects
are guarded by the check after the cache read, `p2` effects by the check after
the network fetch; `bundledLoadCalls` is the synchronous `onLoad` of the
embedded-bundle path, and `initStateUpdates` the unguarded `setError(null)`
at the start of the flow. -/
structure LoadOutcome where
  finalIcon : Option IconData
  errorSurfaced : Bool
  bundledLoadCalls : Nat
  initStateUpdates : Nat
  p1StateUpdates : Nat
  p1LoadCalls : Nat
  p2StateUpdates : Nat
  p2LoadCalls : Nat
  p2ErrorCalls : Nat
  cacheGetCalls : Nat
  netCalls : Nat
  cacheSetCalls : Nat
  store : NativeStore StoredVal
  deriving DecidableEq, Repr

/-- The `IconifyIcon` resolution flow (part_014 lines 155–247).

* Bundled tier (lines 157, 171–179): a synchronous manifest lookup; on a hit
  the component renders immediately, `onLoad` fires and nothing else runs.
* Cache tier (lines 188–213): one `TurboCache.get`; `setCacheChecked` and the
  hit path (`setLoading(false)`, `setIconData`, `onLoad`) are guarded by the
  first cancellation check.  Note that when the flag is already set, the hit
  path's early `return` is skipped and the flow falls through to the network.
* Network tier (lines 216–239): one `loadIcon` call; on success the result is
  written to the cache unconditionally (`getCache().set`, no TTL argument),
  then the final state updates and `onLoad`/`onError` are guarded by the
  second cancellation check.  A fetch or cache-write failure lands in the
  `catch` block, likewise guarded. -/
def iconifyLoad (bundled : List (String × IconData)) (store : NativeStore StoredVal)
    (net : Except ErrorCode IconData) (name : String) (now : Int)
    (nativeGetFails nativeSetFails : Bool) (c1 c2 : Bool) : LoadOutcome :=
  match bundled.lookup name with
  | some icon =>
    { finalIcon := some icon, errorSurfaced := false, bundledLoadCalls := 1
      initStateUpdates := 0, p1StateUpdates := 0, p1LoadCalls := 0
      p2StateUpdates := 0, p2LoadCalls := 0, p2ErrorCalls := 0
      cacheGetCalls := 0, netCalls := 0, cacheSetCalls := 0, store := store }
  | none =>
    let key := componentCacheKey name
    let got := turboCacheGet store key now nativeGetFails
    let store1 := got.1
    let cacheCheckedUpd : Nat := if c1 then 0 else 1
    match got.2, c1 with
    | some cached, false =>
      -- cache hit observed before cancellation: deliver and stop.
      { finalIcon := some cached, errorSurfaced := false, bundledLoadCalls := 0
        initStateUpdates := 1
        p1StateUpdates := cacheCheckedUpd + 2, p1LoadCalls := 1
        p2StateUpdates := 0, p2LoadCalls := 0, p2ErrorCalls := 0
        cacheGetCalls := 1, netCalls := 0, cacheSetCalls := 0, store := store1 }
    | _, _ =>
      -- miss, or the flag was set during the cache read: fall through to the
      -- network tier (`setLoading(true)`/`setIconData(null)` only when not
      -- cancelled).
      let loadingUpd : Nat := if c1 then 0 else 2
      match net with
      | .error _ =>
        { finalIcon := none, errorSurfaced := !c2, bundledLoadCalls := 0
          initStateUpdates := 1
          p1StateUpdates := cacheCheckedUpd + loadingUpd, p1LoadCalls := 0
          p2StateUpdates := if c2 then 0 else 2, p2LoadCalls := 0
          p2ErrorCalls := if c2 then 0 else 1
          cacheGetCalls := 1, netCalls := 1, cacheSetCalls := 0, store := store1 }
      | .ok fetched =>
        if nativeSetFails then
          -- `TurboCache.set` rethrows: the catch block runs.
          { finalIcon := none, errorSurfaced := !c2, bundledLoadCalls := 0
            initStateUpdates := 1
            p1StateUpdates := cacheCheckedUpd + loadingUpd, p1LoadCalls := 0
            p2StateUpdates := if c2 then 0 else 2, p2LoadCalls := 0
            p2ErrorCalls := if c2 then 0 else 1
            cacheGetCalls := 1, netCalls := 1, cacheSetCalls := 1, store := store1 }
        else
          { finalIcon := if c2 then none else some fetched
            errorSurfaced := false, bundledLoadCalls := 0
            initStateUpdates := 1
            p1StateUpdates := cacheCheckedUpd + loadingUpd, p1LoadCalls := 0
            p2StateUpdates := if c2 then 0 else 2
            p2LoadCalls := if c2 then 0 else 1, p2ErrorCalls := 0
            cacheGetCalls := 1, netCalls := 1, cacheSetCalls := 1
            store := moduleSetValue store1 key (.good fetched) none now }

/-! ### The usage scanner (src/scripts/scan-icons.js)

`extractIconNames` runs five global regexes over a file's text and keeps the
captures that validate as `prefix:name` identifiers with a known prefix.  The
regex scan is modelled as a left-to-right walk: at each position the pattern
is tried (the character classes exclude the characters that follow them, so
maximal munch is exact); a match emits its capture and the walk resumes after
the match, exactly like `RegExp.exec` with the `g` flag. -/

/-- `VALID_ICONIFY_PREFIXES` (scan-icons.js lines 12–138). -/
def VALID_ICONIFY_PREFIXES : List String :=
  ["mdi", "mdi-light", "ic", "ph", "ri", "carbon", "tabler", "lucide",
   "heroicons", "heroicons-outline", "heroicons-solid", "fa", "fa-solid",
   "fa-regular", "fa-brands", "fa6-solid", "fa6-regular", "fa6-brands", "bi",
   "bx", "bxs", "bxl", "feather", "ion", "octicon", "ant-design",
   "simple-icons", "logos", "fluent", "fluent-emoji", "fluent-emoji-flat",
   "fluent-emoji-high-contrast", "twemoji", "noto", "noto-v1", "emojione",
   "emojione-v1", "emojione-monotone", "openmoji", "fxemoji", "clarity",
   "akar-icons", "uil", "uiw", "majesticons", "zondicons", "bytesize", "ei",
   "eva", "prime", "teenyicons", "codicon", "pepicons", "pepicons-pop",
   "pepicons-print", "iconoir", "iconamoon", "basil", "circum",
   "pixelarticons", "system-uicons", "radix-icons", "mingcute", "solar",
   "hugeicons", "streamline", "streamline-emojis", "streamline-plump",
   "eos-icons", "material-symbols", "material-symbols-light", "ic-baseline",
   "ic-outline", "ic-round", "ic-sharp", "ic-twotone", "jam", "gridicons",
   "mi", "quill", "gala", "healthicons", "medical-icon", "covid", "la",
   "dashicons", "flat-color-icons", "entypo", "entypo-social", "foundation",
   "raphael", "icons8", "wpf", "iwwa", "typcn", "subway", "icomoon-free",
   "fontisto", "ps", "cil", "gg", "file-icons", "vscode-icons", "devicon",
   "devicon-plain", "skill-icons", "catppuccin", "line-md", "svg-spinners",
   "meteocons", "token", "token-branded", "cryptocurrency",
   "cryptocurrency-color", "flag", "flagpack", "circle-flags", "cif", "gis",
   "map", "geo", "game-icons", "fad", "academicons", "guidance"]

/-- ASCII lower-casing, modelling `String.prototype.toLowerCase` on the
ASCII identifiers the scanner handles. -/
def toLowerStr (s : String) : String :=
  ⟨s.data.map Char.toLower⟩

/-- A character of the class `[a-z0-9]` (the name parts are validated after
lower-casing). -/
def isLowerAlnum (c : Char) : Bool :=
  c.isLower || c.isDigit

/-- The name part's regex `^[a-z0-9][a-z0-9-]*[a-z0-9]$|^[a-z0-9]$`
(scan-icons.js line 260): non-empty, chars in `[a-z0-9-]`, first and last
char not a dash. -/
def iconNamePartOk : List Char → Bool
  | [] => false
  | [c] => isLowerAlnum c
  | c :: rest =>
    isLowerAlnum c
      && rest.dropLast.all (fun x => isLowerAlnum x || x = '-')
      && (match rest.getLast? with
          | some l => isLowerAlnum l
          | none => false)

/-- `isValidIconifyPrefix` (scan-icons.js lines 232–234): membership of the
lower-cased prefix in the known-prefix list. -/
def isValidIconifyPrefixName (p : String) : Bool :=
  VALID_ICONIFY_PREFIXES.contains (toLowerStr p)

/-- `isValidIconifyIcon` (scan-icons.js lines 240–265): exactly two non-empty
parts around the colon, known prefix, and name matching the shape regex. -/
def isValidIconifyIcon (iconName : String) : Bool :=
  match splitIconName iconName with
  | [p, n] =>
    p ≠ "" && n ≠ "" && isValidIconifyPrefixName p && iconNamePartOk n.data
  | _ => false

/-- A character of the class `[a-z0-9-]` under the `i` flag. -/
def isIdentChar (c : Char) : Bool :=
  c.isAlpha || c.isDigit || c = '-'

/-- The double quote. -/
def dQuote : Char := Char.ofNat 34

/-- The single quote. -/
def sQuote : Char := Char.ofNat 39

/-- The backtick. -/
def backtick : Char := Char.ofNat 96

/-- The opening curly brace. -/
def openBrace : Char := Char.ofNat 123

/-- The closing curly brace. -/
def closeBrace : Char := Char.ofNat 125

/-- Match the capture group `([a-z0-9-]+:[a-z0-9-]+)` (case-insensitive)
at the head of `cs`; returns the captured text and the remainder. -/
def matchIdentCore (cs : List Char) : Option (List Char × List Char) :=
  let p1 := cs.takeWhile isIdentChar
  if p1.isEmpty then none
  else
    match cs.drop p1.length with
    | c :: rest2 =>
      if c = ':' then
        let p2 := rest2.takeWhile isIdentChar
        if p2.isEmpty then none
        else some (p1 ++ ':' :: p2, rest2.drop p2.length)
      else none
    | [] => none

/-- Match one character of the class `["']`. -/
def matchQuote : List Char → Option (List Char)
  | c :: rest => if c = dQuote || c = sQuote then some rest else none
  | [] => none

/-- Match a fixed character. -/
def expectChar (c : Char) : List Char → Option (List Char)
  | x :: rest => if x = c then some rest else none
  | [] => none

/-- Match a literal (given lower-cased) case-insensitively, as the `i` flag
does for the fixed parts of the patterns. -/
def matchLitCI : List Char → List Char → Option (List Char)
  | [], rest => some rest
  | _ :: _, [] => none
  | l :: lt, c :: ct => if c.toLower = l then matchLitCI lt ct else none

/-- A whitespace character for `\s*` (the common JavaScript cases). -/
def isSpaceChar (c : Char) : Bool :=
  c = ' ' || c = '\t' || c = '\n' || c = '\r'

/-- The five patterns of `extractIconNames` (scan-icons.js lines 280–286). -/
inductive ScanPat where
  | jsxPlain
  | jsxBrace
  | jsxTemplate
  | objProp
  | bareLit
  deriving DecidableEq, Repr

/-- Try one pattern at the head of `cs`; on success return the capture and
the text after the whole match. -/
def matchAt (k : ScanPat) (cs : List Char) : Option (List Char × List Char) :=
  match k with
  | .bareLit => do
    let r1 ← matchQuote cs
    let (id, r2) ← matchIdentCore r1
    let r3 ← matchQuote r2
    return (id, r3)
  | .jsxPlain => do
    let r0 ← matchLitCI "name=".data cs
    let r1 ← matchQuote r0
    let (id, r2) ← matchIdentCore r1
    let r3 ← matchQuote r2
    return (id, r3)
  | .jsxBrace => do
    let r0 ← matchLitCI "name=".data cs
    let rb ← expectChar openBrace r0
    let r1 ← matchQuote rb
    let (id, r2) ← matchIdentCore r1
    let r3 ← matchQuote r2
    let r4 ← expectChar closeBrace r3
    return (id, r4)
  | .jsxTemplate => do
    let r0 ← matchLitCI "name=".data cs
    let rb ← expectChar openBrace r0
    let r1 ← expectChar backtick rb
    let (id, r2) ← matchIdentCore r1
    let r3 ← expectChar backtick r2
    let r4 ← expectChar closeBrace r3
    return (id, r4)
  | .objProp => do
    let r0 ← matchLitCI "name:".data cs
    let rs := r0.dropWhile isSpaceChar
    let r1 ← matchQuote rs
    let (id, r2) ← matchIdentCore r1
    let r3 ← matchQuote r2
    return (id, r3)

/-- One global-regex pass: walk left to right, at each position try the
pattern; a match emits its capture and the walk resumes after it.  `fuel`
bounds the recursion; the input length suffices because every match consumes
at least one character. -/
def scanPatAux (k : ScanPat) : Nat → List Char → List (List Char)
  | 0, _ => []
  | _ + 1, [] => []
  | fuel + 1, c :: rest =>
    match matchAt k (c :: rest) with
    | some (id, rest') => id :: scanPatAux k fuel rest'
    | none => scanPatAux k fuel rest

/-- All captures of one pattern over a file's text. -/
def runPattern (k : ScanPat) (content : String) : List String :=
  (scanPatAux k content.data.length content.data).map fun l => ⟨l⟩

/-- `extractIconNames` (scan-icons.js lines 277–299): for each pattern in
order, lower-case every capture and keep it when `isValidIconifyIcon` holds;
the `Set` keeps first-insertion order.  No property of the file other than
its text is consulted — in particular there is no check that the file
references the rendering component. -/
def extractIconNames (content : String) : List String :=
  [ScanPat.jsxPlain, .jsxBrace, .jsxTemplate, .objProp, .bareLit].foldl
    (fun acc k =>
      (runPattern k content).foldl
        (fun acc m =>
          let iconName := toLowerStr m
          if isValidIconifyIcon iconName && !acc.contains iconName then
            acc ++ [iconName]
          else acc)
        acc)
    []

/-- `CONFIG.extensions` (scan-icons.js line 172). -/
def CONFIG_extensions : List String := [".tsx", ".ts", ".jsx", ".js"]

/-- `CONFIG.ignore` (scan-icons.js lines 173–190). -/
def CONFIG_ignore : List String :=
  ["node_modules", ".expo", ".git", "dist", "build", "__tests__",
   "__mocks__", ".test.", ".spec.", "coverage", ".storybook", "storybook",
   "android", "ios", ".next", "out"]

/-- `pat` occurs as a contiguous substring of `hay`
(JavaScript `String.prototype.includes`). -/
def hasInfix (hay pat : List Char) : Bool :=
  match hay with
  | [] => pat.isEmpty
  | _ :: t => pat.isPrefixOf hay || hasInfix t pat

/-- `shouldIgnore` (scan-icons.js lines 196–198). -/
def shouldIgnore (filePath : String) : Bool :=
  CONFIG_ignore.any fun pat => hasInfix filePath.data pat.data

/-- The extension filter of `getAllFiles` / `scanProject`
(scan-icons.js lines 221, 330). -/
def hasScanExt (file : String) : Bool :=
  CONFIG_extensions.any fun ext => ext.data.isSuffixOf file.data

/-- `allIcons.add(icon)`: insert into the set, keeping first-insertion
order. -/
def addIcon (acc : List String) (icon : String) : List String :=
  if acc.contains icon then acc else acc ++ [icon]

/-- `scanProject` (scan-icons.js lines 304–384) restricted to its observable
identifier set: every file whose name has a scanned extension and is not
ignored is handed to `extractIconNames`, and all results are accumulated into
one de-duplicated set.  The directory walk and the final lexicographic sort
do not change which identifiers are reported.  Files are (path, text) pairs.
There is no content-based filtering: a file is scanned whether or not it
references the rendering component. -/
def scanProjectIcons (files : List (String × String)) : List String :=
  files.foldl
    (fun acc f =>
      if hasScanExt f.1 && !shouldIgnore f.1 then
        (extractIconNames f.2).foldl addIcon acc
      else acc)
    []

/-! ### The in-memory LRU cache (src/packages/turbo-cache/src/cache.ts)

`MemoryCache` keeps a `Map` from key to entry plus an explicit access-order
list (least recently used first).  The `Map` is an association list with
unique keys; `Date.now()` is an explicit `now` argument. -/

/-- `CacheEntry` (packages/turbo-cache/src/types.ts): data plus the write
timestamp and the resolved TTL. -/
structure MemEntry (α : Type) where
  data : α
  timestamp : Int
  ttl : Option Int
  deriving DecidableEq, Repr

/-- The `MemoryCache` state. -/
structure MemoryCache (α : Type) where
  cache : List (String × MemEntry α)
  accessOrder : List String
  maxSize : Nat
  defaultTTL : Option Int
  deriving DecidableEq, Repr

/-- `isExpired` (cache.ts lines 126–133): a falsy `ttl` (absent or `0`) never
expires; otherwise the entry is expired when its age strictly exceeds the
TTL. -/
def memIsExpired (e : MemEntry α) (now : Int) : Bool :=
  match e.ttl with
  | none => false
  | some t => if t = 0 then false else now - e.timestamp > t

/-- `Map.delete`: drop the binding of `k` (keys are unique, so dropping every
match mirrors deleting the single binding). -/
def mapDelete (m : List (String × β)) (k : String) : List (String × β) :=
  m.filter fun p => p.1 ≠ k

/-- `Map.set`: overwrite in place when the key is present, append
otherwise. -/
def mapSet (m : List (String × β)) (k : String) (v : β) : List (String × β) :=
  if (m.lookup k).isSome then
    m.map fun p => if p.1 = k then (k, v) else p
  else m ++ [(k, v)]

/-- `get` (cache.ts lines 29–50): a hit on an unexpired entry moves the key
to the most-recently-used end of the access order and returns the data; an
expired entry is removed from both structures and reported as a miss.  The
hit/miss statistics are not modelled. -/
def memGet (st : MemoryCache α) (k : String) (now : Int) :
    MemoryCache α × Option α :=
  match st.cache.lookup k with
  | none => (st, none)
  | some e =>
    if memIsExpired e now then
      ({ st with cache := mapDelete st.cache k,
                 accessOrder := st.accessOrder.erase k }, none)
    else
      ({ st with accessOrder := st.accessOrder.erase k ++ [k] }, some e.data)

/-- `evictOldest` (cache.ts lines 138–146): drop the front of the access
order (the least recently used key) and its cache entry. -/
def evictOldest (st : MemoryCache α) : MemoryCache α :=
  match st.accessOrder with
  | [] => st
  | oldest :: rest =>
    { st with cache := mapDelete st.cache oldest, accessOrder := rest }

/-- `set` (cache.ts lines 58–72): evict the oldest entry when the cache is at
capacity and the key is new; a falsy `ttl` argument falls back to the default
TTL; finally store the entry and move the key to the most-recently-used
position. -/
def memSet (st : MemoryCache α) (k : String) (v : α) (ttl : Option Int)
    (now : Int) : MemoryCache α :=
  let st1 :=
    if st.maxSize ≤ st.cache.length ∧ (st.cache.lookup k).isNone then
      evictOldest st
    else st
  let resolvedTtl : Option Int :=
    match ttl with
    | none => st.defaultTTL
    | some t => if t = 0 then st.defaultTTL else some t
  { st1 with
    cache := mapSet st1.cache k ⟨v, now, resolvedTtl⟩
    accessOrder := st1.accessOrder.erase k ++ [k] }

/-- The representation invariant relating the `Map` and the access-order
list: no duplicate keys anywhere, and the access order holds exactly the
cached keys. -/
def MemWF (st : MemoryCache α) : Prop :=
  st.accessOrder.Nodup ∧ (st.cache.map Prod.fst).Nodup ∧
    ∀ k, k ∈ st.accessOrder ↔ (st.cache.lookup k).isSome

/-- Decidable equality for `Except` results. -/
instance {ε α : Type} [DecidableEq ε] [DecidableEq α] :
    DecidableEq (Except ε α) := fun a b =>
  match a, b with
  | .ok x, .ok y =>
    if h : x = y then isTrue (by rw [h]) else isFalse (by simp [h])
  | .error x, .error y =>
    if h : x = y then isTrue (by rw [h]) else isFalse (by simp [h])
  | .ok _, .error _ => isFalse (by simp)
  | .error _, .ok _ => isFalse (by simp)

/-! ### Shared fixtures for witnesses and counterexamples -/

/-- A small valid icon used by concrete instances. -/
def sampleIcon : IconData :=
  { name := "mdi:home", body := "<path d=\"h\"/>", width := 24, height := 24 }

/-- A small collection response used by concrete instances. -/
def sampleResp : APIResponse :=
  { prefixStr := "mdi",
    icons := [("home", { body := some "<path d=\"h\"/>",
                         width := some 24, height := some 24 })] }

/-! ### Claim C1 — alias resolution -/

/-- The collection of the claim's scenario: `aliases.foo = \x7bparent: "bar",
rotate: 1\x7d` and `icons.bar = \x7bbody: B, width: 24, height: 24\x7d`. -/
def c1Resp : APIResponse :=
  { prefixStr := "prefix",
    icons := [("bar", { body := some "B", width := some 24, height := some 24 })],
    aliases := some [("foo", .obj { parent := "bar", rotate := some 1 })] }

/-- A file that never mentions the rendering component yet contains an
icon-identifier-shaped string literal. -/
def c8File : String := "const x = \"mdi:home\";"

/-- A well-formed one-entry LRU cache at capacity (`maxSize = 1`). -/
def c10State : MemoryCache Nat :=
  { cache := [("a", ⟨1, 0, none⟩)], accessOrder := ["a"],
    maxSize := 1, defaultTTL := none }

/-- C1, counterexample: resolving `prefix:foo` on the claim's scenario yields
an icon whose `rotate` is absent — not the alias's `rotate: 1`.  The alias's
own transform-override fields do NOT win; `extractIconFromResponse` reads
only the alias's `parent`. -/
theorem c1_counterexample :
    extractIconFromResponse c1Resp "prefix:foo" =
      Except.ok { name := "prefix:foo", body := "B", width := 24, height := 24 } ∧
    extractIconFromResponse c1Resp "prefix:foo" ≠
      Except.ok { name := "prefix:foo", body := "B", width := 24, height := 24,
                  rotate := some 1 } := by
  decide

/-- C1, amended: for every `CollectionResponse` whose aliases map contains
`foo = \x7bparent: "bar", rotate: r\x7d` and whose icons map contains
`bar = \x7bbody: B, width: 24, height: 24\x7d` (with `B` non-empty), resolving
`prefix:foo` yields the parent's `body`, `width` and `height`, while the
alias's own transform-override fields are ignored: the transform fields of
the result come from the parent icon (absent here), falling back to the
collection-level defaults — the result is independent of `r`. -/
theorem c1_alias_override_ignored
    (resp : APIResponse) (al : List (String × AliasEntry)) (B : String) (r : Int)
    (hal : resp.aliases = some al)
    (hfoo : al.lookup "foo" = some (.obj { parent := "bar", rotate := some r }))
    (hbar : resp.icons.lookup "bar" =
      some { body := some B, width := some 24, height := some 24 })
    (hB : B ≠ "") :
    extractIconFromResponse resp "prefix:foo" =
      Except.ok { name := "prefix:foo", body := B, width := 24, height := 24,
                  left := resp.left, top := resp.top, rotate := resp.rotate,
                  hFlip := resp.hFlip, vFlip := resp.vFlip } := by
  have hsplit : splitIconName "prefix:foo" = ["prefix", "foo"] := by decide
  simp only [extractIconFromResponse, hsplit, hal, hfoo, hbar]
  simp [parseIconData, hbar, hB]

/-- C1 witness: the amended theorem applied to the concrete scenario. -/
theorem c1_alias_override_ignored_witness :
    extractIconFromResponse c1Resp "prefix:foo" =
      Except.ok { name := "prefix:foo", body := "B", width := 24, height := 24,
                  left := none, top := none, rotate := none,
                  hFlip := none, vFlip := none } :=
  c1_alias_override_ignored c1Resp
    [("foo", .obj { parent := "bar", rotate := some 1 })] "B" 1
    rfl rfl rfl (by decide)

/-! ### Claim C2 — not-found short circuit -/

/-- C2: when the first host's first request answers with status 404, the
whole fetch terminates immediately with `NOT_FOUND` after exactly one request
in total — no retry on that host, and no fallback to any later host. -/
theorem c2_notfound_short_circuit
    (h1 : HostBehavior) (rest : List HostBehavior) (maxRetries : Nat)
    (iconName : String) (body : Option APIResponse)
    (hname : (splitIconName iconName).length = 2)
    (hmr : 1 ≤ maxRetries)
    (h404 : h1 0 = .response 404 body) :
    fetchIconData iconName (h1 :: rest) maxRetries =
      (1, .error .NOT_FOUND) := by
  obtain ⟨m, rfl⟩ : ∃ m, maxRetries = m + 1 :=
    ⟨maxRetries - 1, (Nat.succ_pred_eq_of_pos hmr).symm⟩
  simp only [fetchIconData, hname, if_pos]
  simp [fetchHosts, tryHost, h404, fetchFromHost]

/-- C2 witness: a 404 first host followed by a healthy host, three retries. -/
theorem c2_notfound_short_circuit_witness :
    fetchIconData "mdi:home"
      [fun _ => .response 404 none, fun _ => .response 200 (some sampleResp)] 3 =
      (1, .error .NOT_FOUND) :=
  c2_notfound_short_circuit (fun _ => .response 404 none)
    [fun _ => .response 200 (some sampleResp)] 3 "mdi:home" none
    (by decide) (by decide) rfl

/-! ### Claim C3 — per-host retry counting and host fallback -/

/-- The per-host loop issues at most `fuel` requests. -/
theorem tryHost_fst_le (h : HostBehavior) (fuel attempt : Nat) :
    (tryHost h fuel attempt).1 ≤ fuel := by
  induction fuel generalizing attempt with
  | zero => simp [tryHost]
  | succ n ih =>
    unfold tryHost
    cases hfo : fetchFromHost (h attempt) with
    | ok data => simp
    | error c =>
      by_cases hc : c = .NOT_FOUND ∨ c = .PARSE_ERROR
      · simp [hc]
      · simpa [hc] using ih (attempt + 1)

/-- The host loop issues at most `hosts.length * maxRetries` requests. -/
theorem fetchHosts_fst_le (hosts : List HostBehavior) (maxRetries : Nat) :
    (fetchHosts hosts maxRetries).1 ≤ hosts.length * maxRetries := by
  induction hosts with
  | nil => simp [fetchHosts]
  | cons h rest ih =>
    unfold fetchHosts
    cases htr : tryHost h maxRetries 0 with
    | mk n r =>
      have hn : n ≤ maxRetries := by
        have := tryHost_fst_le h maxRetries 0
        rw [htr] at this
        exact this
      cases r with
      | none =>
        simp only [List.length_cons]
        have := ih
        nlinarith [ih]
      | some v =>
        simp only [List.length_cons]
        nlinarith

/-- A host whose every attempt fails with a retryable classification exhausts
all its retries: `fuel` requests, no terminal outcome. -/
theorem tryHost_all_transient (h : HostBehavior)
    (htrans : ∀ i, ∃ c, fetchFromHost (h i) = .error c ∧
      c ≠ .NOT_FOUND ∧ c ≠ .PARSE_ERROR) (fuel attempt : Nat) :
    tryHost h fuel attempt = (fuel, none) := by
  induction fuel generalizing attempt with
  | zero => simp [tryHost]
  | succ n ih =>
    obtain ⟨c, hc, hc1, hc2⟩ := htrans attempt
    unfold tryHost
    rw [hc]
    simp [hc1, hc2, ih (attempt + 1)]

/-- C3: retry counting is per host — at most `hosts.length * maxRetries`
requests are ever issued; and when host 1 fails with a retryable error on
every attempt while host 2 succeeds at once, the fetch issues exactly
`maxRetries + 1` requests and returns host 2's response. -/
theorem c3_per_host_retry
    (hosts : List HostBehavior) (h1 h2 : HostBehavior)
    (maxRetries : Nat) (iconName : String) (data : APIResponse)
    (hname : (splitIconName iconName).length = 2)
    (hmr : 1 ≤ maxRetries)
    (htrans : ∀ i, ∃ c, fetchFromHost (h1 i) = .error c ∧
      c ≠ .NOT_FOUND ∧ c ≠ .PARSE_ERROR)
    (hok : fetchFromHost (h2 0) = .ok data) :
    (fetchIconData iconName hosts maxRetries).1 ≤
      hosts.length * maxRetries ∧
    fetchIconData iconName [h1, h2] maxRetries =
      (maxRetries + 1, .ok data) := by
  constructor
  · by_cases hn : (splitIconName iconName).length = 2
    · simpa [fetchIconData, hn] using fetchHosts_fst_le hosts maxRetries
    · simp [fetchIconData, hn]
  · obtain ⟨m, rfl⟩ : ∃ m, maxRetries = m + 1 :=
      ⟨maxRetries - 1, (Nat.succ_pred_eq_of_pos hmr).symm⟩
    simp only [fetchIconData, hname, if_pos]
    rw [fetchHosts, tryHost_all_transient h1 htrans (m + 1) 0]
    rw [fetchHosts, tryHost, hok]

/-- C3 witness: a persistently failing first host and a healthy second host
with `maxRetries = 3` — four requests, host 2's response. -/
theorem c3_per_host_retry_witness :
    (fetchIconData "mdi:home"
        [fun _ => .netError, fun _ => .response 200 (some sampleResp)] 3).1 ≤
      2 * 3 ∧
    fetchIconData "mdi:home"
        [fun _ => .netError, fun _ => .response 200 (some sampleResp)] 3 =
      (3 + 1, .ok sampleResp) :=
  c3_per_host_retry
    [fun _ => .netError, fun _ => .response 200 (some sampleResp)]
    (fun _ => .netError) (fun _ => .response 200 (some sampleResp))
    3 "mdi:home" sampleResp (by decide) (by decide)
    (fun _ => ⟨.NETWORK_ERROR, rfl, by decide, by decide⟩) rfl

/-! ### Claim C4 — the embedded tier is synchronous and absolute -/

/-- C4: when the identifier is a key of the loaded bundled-icon manifest, the
resolution flow returns that manifest entry with zero asynchronous work: no
persistent-cache query, no network request, no cache write, and an unchanged
store — for every cache state, network behaviour, time and flag values. -/
theorem c4_bundled_synchronous
    (bundled : List (String × IconData)) (store : NativeStore StoredVal)
    (net : Except ErrorCode IconData) (name : String) (now : Int)
    (gf sf c1 c2 : Bool) (icon : IconData)
    (h : bundled.lookup name = some icon) :
    (iconifyLoad bundled store net name now gf sf c1 c2).finalIcon = some icon ∧
    (iconifyLoad bundled store net name now gf sf c1 c2).cacheGetCalls = 0 ∧
    (iconifyLoad bundled store net name now gf sf c1 c2).netCalls = 0 ∧
    (iconifyLoad bundled store net name now gf sf c1 c2).cacheSetCalls = 0 ∧
    (iconifyLoad bundled store net name now gf sf c1 c2).store = store ∧
    (iconifyLoad bundled store net name now gf sf c1 c2).bundledLoadCalls = 1 := by
  simp [iconifyLoad, h]

/-- C4 witness: a bundled `mdi:home` resolves against an empty store and a
failing network without touching either. -/
theorem c4_bundled_synchronous_witness :
    (iconifyLoad [("mdi:home", sampleIcon)] [] (.error .NETWORK_ERROR)
        "mdi:home" 0 true true false false).finalIcon = some sampleIcon ∧
    (iconifyLoad [("mdi:home", sampleIcon)] [] (.error .NETWORK_ERROR)
        "mdi:home" 0 true true false false).cacheGetCalls = 0 ∧
    (iconifyLoad [("mdi:home", sampleIcon)] [] (.error .NETWORK_ERROR)
        "mdi:home" 0 true true false false).netCalls = 0 ∧
    (iconifyLoad [("mdi:home", sampleIcon)] [] (.error .NETWORK_ERROR)
        "mdi:home" 0 true true false false).cacheSetCalls = 0 ∧
    (iconifyLoad [("mdi:home", sampleIcon)] [] (.error .NETWORK_ERROR)
        "mdi:home" 0 true true false false).store = [] ∧
    (iconifyLoad [("mdi:home", sampleIcon)] [] (.error .NETWORK_ERROR)
        "mdi:home" 0 true true false false).bundledLoadCalls = 1 :=
  c4_bundled_synchronous [("mdi:home", sampleIcon)] [] (.error .NETWORK_ERROR)
    "mdi:home" 0 true true false false sampleIcon rfl

/-! ### Claim C5 — persistent-cache idempotence -/

/-- Reading a key straight after writing it without a TTL hits: the write
prepends the entry under the sanitized key, and an absent `expiresAt` never
expires. -/
theorem moduleGetValue_set_none (store : NativeStore α) (k : String) (v : α)
    (now now2 : Int) :
    moduleGetValue (moduleSetValue store k v none now) k now2 =
      (moduleSetValue store k v none now, some v) := by
  simp [moduleGetValue, moduleSetValue, List.lookup, cdIsExpired]

/-- C5: for an identifier not in the embedded manifest, a cold resolution
that succeeds over the network performs one fetch and one cache write; an
immediately following second resolution of the same identifier (at any later
time — the entry is written without a TTL and cannot expire) is served from
the persistent cache: zero network calls, zero cache writes, same icon, for
ANY second-run network behaviour. -/
theorem c5_second_resolve_cached
    (bundled : List (String × IconData)) (store s1 : NativeStore StoredVal)
    (name : String) (now1 now2 : Int) (d : IconData)
    (net2 : Except ErrorCode IconData)
    (hb : bundled.lookup name = none)
    (hcold : turboCacheGet store (componentCacheKey name) now1 false =
      (s1, none)) :
    (iconifyLoad bundled store (.ok d) name now1 false false false false).netCalls = 1 ∧
    (iconifyLoad bundled store (.ok d) name now1 false false false false).cacheSetCalls = 1 ∧
    (iconifyLoad bundled store (.ok d) name now1 false false false false).finalIcon = some d ∧
    (iconifyLoad bundled
        (iconifyLoad bundled store (.ok d) name now1 false false false false).store
        net2 name now2 false false false false).netCalls = 0 ∧
    (iconifyLoad bundled
        (iconifyLoad bundled store (.ok d) name now1 false false false false).store
        net2 name now2 false false false false).cacheSetCalls = 0 ∧
    (iconifyLoad bundled
        (iconifyLoad bundled store (.ok d) name now1 false false false false).store
        net2 name now2 false false false false).finalIcon = some d := by
  have h1 : iconifyLoad bundled store (.ok d) name now1 false false false false =
      { finalIcon := some d, errorSurfaced := false, bundledLoadCalls := 0
        initStateUpdates := 1, p1StateUpdates := 3, p1LoadCalls := 0
        p2StateUpdates := 2, p2LoadCalls := 1, p2ErrorCalls := 0
        cacheGetCalls := 1, netCalls := 1, cacheSetCalls := 1
        store := moduleSetValue s1 (componentCacheKey name) (.good d) none now1 } := by
    simp [iconifyLoad, hb, hcold]
  rw [h1]
  have h2 : turboCacheGet
      (moduleSetValue s1 (componentCacheKey name) (.good d) none now1)
      (componentCacheKey name) now2 false =
      (moduleSetValue s1 (componentCacheKey name) (.good d) none now1, some d) := by
    simp [turboCacheGet, moduleGetValue_set_none]
  simp [iconifyLoad, hb, h2]

/-- C5 witness: `mdi:home` resolved twice against an initially empty store;
the second run's network behaviour is a failure, which is never consulted. -/
theorem c5_second_resolve_cached_witness :
    (iconifyLoad [] [] (.ok sampleIcon) "mdi:home" 0 false false false false).netCalls = 1 ∧
    (iconifyLoad [] [] (.ok sampleIcon) "mdi:home" 0 false false false false).cacheSetCalls = 1 ∧
    (iconifyLoad [] [] (.ok sampleIcon) "mdi:home" 0 false false false false).finalIcon = some sampleIcon ∧
    (iconifyLoad []
        (iconifyLoad [] [] (.ok sampleIcon) "mdi:home" 0 false false false false).store
        (.error .NETWORK_ERROR) "mdi:home" 99 false false false false).netCalls = 0 ∧
    (iconifyLoad []
        (iconifyLoad [] [] (.ok sampleIcon) "mdi:home" 0 false false false false).store
        (.error .NETWORK_ERROR) "mdi:home" 99 false false false false).cacheSetCalls = 0 ∧
    (iconifyLoad []
        (iconifyLoad [] [] (.ok sampleIcon) "mdi:home" 0 false false false false).store
        (.error .NETWORK_ERROR) "mdi:home" 99 false false false false).finalIcon = some sampleIcon :=
  c5_second_resolve_cached [] [] [] "mdi:home" 0 99 sampleIcon
    (.error .NETWORK_ERROR) rfl rfl

/-! ### Claim C6 — cache read failure falls through, network failure is
terminal -/

/-- C6: a persistent-cache read failure — the native facility rejecting, or a
corrupt stored value — does not fail the resolution: it is treated as a miss
and the flow falls through to the network tier (exactly one fetch).  If the
network tier then fails, that failure is surfaced to the caller (`onError`
fires, the error state is set, no icon is delivered) and nothing further is
consulted: no cache write, no further tier. -/
theorem c6_cache_failure_falls_through
    (bundled : List (String × IconData)) (store : NativeStore StoredVal)
    (net : Except ErrorCode IconData) (name : String) (now : Int)
    (gf sf : Bool) (e : ErrorCode)
    (hb : bundled.lookup name = none)
    (hfail : gf = true ∨
      (moduleGetValue store (componentCacheKey name) now).2 = some .corrupt) :
    (iconifyLoad bundled store net name now gf sf false false).netCalls = 1 ∧
    (net = .error e →
      (iconifyLoad bundled store net name now gf sf false false).errorSurfaced = true ∧
      (iconifyLoad bundled store net name now gf sf false false).p2ErrorCalls = 1 ∧
      (iconifyLoad bundled store net name now gf sf false false).cacheSetCalls = 0 ∧
      (iconifyLoad bundled store net name now gf sf false false).finalIcon = none) := by
  have hmiss : (turboCacheGet store (componentCacheKey name) now gf).2 = none := by
    rcases hfail with hgf | hcor
    · simp [turboCacheGet, hgf]
    · rcases hmv : moduleGetValue store (componentCacheKey name) now with ⟨s', r⟩
      rw [hmv] at hcor
      simp at hcor
      cases gf with
      | true => simp [turboCacheGet]
      | false => simp [turboCacheGet, hmv, hcor]
  rcases htc : turboCacheGet store (componentCacheKey name) now gf with ⟨s1, r⟩
  rw [htc] at hmiss
  simp only at hmiss
  subst hmiss
  cases net with
  | error err => simp [iconifyLoad, hb, htc]
  | ok d =>
    refine ⟨?_, ?_⟩
    · cases sf with
      | true => simp [iconifyLoad, hb, htc]
      | false => simp [iconifyLoad, hb, htc]
    · intro hcontra
      cases hcontra

/-- C6 witness: a store holding a corrupt entry for the key, a failing
network — one fetch, error surfaced, no write. -/
theorem c6_cache_failure_falls_through_witness :
    (iconifyLoad [] [("icon_mdi_home", ⟨.corrupt, none⟩)]
        (.error .TIMEOUT) "mdi:home" 0 false false false false).netCalls = 1 ∧
    ((Except.error .TIMEOUT : Except ErrorCode IconData) = .error .TIMEOUT →
      (iconifyLoad [] [("icon_mdi_home", ⟨.corrupt, none⟩)]
          (.error .TIMEOUT) "mdi:home" 0 false false false false).errorSurfaced = true ∧
      (iconifyLoad [] [("icon_mdi_home", ⟨.corrupt, none⟩)]
          (.error .TIMEOUT) "mdi:home" 0 false false false false).p2ErrorCalls = 1 ∧
      (iconifyLoad [] [("icon_mdi_home", ⟨.corrupt, none⟩)]
          (.error .TIMEOUT) "mdi:home" 0 false false false false).cacheSetCalls = 0 ∧
      (iconifyLoad [] [("icon_mdi_home", ⟨.corrupt, none⟩)]
          (.error .TIMEOUT) "mdi:home" 0 false false false false).finalIcon = none) :=
  c6_cache_failure_falls_through [] [("icon_mdi_home", ⟨.corrupt, none⟩)]
    (.error .TIMEOUT) "mdi:home" 0 false false .TIMEOUT rfl
    (Or.inr (by decide))

/-! ### Claim C7 — native-module TTL semantics -/

/-- C7: writing `k ↦ v` with a positive TTL `t` at time `now1`, (a) a read
before `t` has elapsed returns `v`; (b) a read after `t` has elapsed returns
absent AND proactively deletes the stored file, so the store size drops by
exactly that file's size; (c) an entry written without a TTL is never treated
as expired on read, at any time. -/
theorem c7_ttl_roundtrip
    (store : NativeStore String) (k v : String) (t now1 now2 now3 : Int)
    (ht : 0 < t) (hbefore : now2 < now1 + t) (hafter : now1 + t < now3) :
    (moduleGetValue (moduleSetValue store k v (some t) now1) k now2).2 = some v ∧
    (moduleGetValue (moduleSetValue store k v (some t) now1) k now3).2 = none ∧
    moduleGetSize (moduleGetValue (moduleSetValue store k v (some t) now1) k now3).1
        + v.length
      = moduleGetSize (moduleSetValue store k v (some t) now1) ∧
    (∀ (s2 : NativeStore String) (now4 now5 : Int),
      (moduleGetValue (moduleSetValue s2 k v none now4) k now5).2 = some v) := by
  have hset : moduleSetValue store k v (some t) now1 =
      (sanitizeKey k, ⟨v, some (now1 + t)⟩) ::
        (store.filter fun p => p.1 ≠ sanitizeKey k) := by
    simp [moduleSetValue, ht]
  have hfresh : ¬ (now2 > now1 + t) := by omega
  have hstale : now3 > now1 + t := hafter
  have hrestfix : ((store.filter fun p => p.1 ≠ sanitizeKey k).filter
      fun p => p.1 ≠ sanitizeKey k) =
      (store.filter fun p => p.1 ≠ sanitizeKey k) := by
    rw [List.filter_eq_self]
    intro a ha
    exact (List.mem_filter.mp ha).2
  refine ⟨?_, ?_, ?_, ?_⟩
  · rw [hset]
    simp [moduleGetValue, List.lookup, cdIsExpired, hfresh]
  · rw [hset]
    simp [moduleGetValue, List.lookup, cdIsExpired, hstale]
  · rw [hset]
    simp [moduleGetValue, List.lookup, cdIsExpired, hstale, hrestfix,
      moduleGetSize]
    omega
  · intro s2 now4 now5
    rw [moduleGetValue_set_none]

/-- C7 witness: a TTL of 10ms written at time 0, read at 5 and at 11. -/
theorem c7_ttl_roundtrip_witness :
    (moduleGetValue (moduleSetValue [] "icon:mdi:home" "v" (some 10) 0)
        "icon:mdi:home" 5).2 = some "v" ∧
    (moduleGetValue (moduleSetValue [] "icon:mdi:home" "v" (some 10) 0)
        "icon:mdi:home" 11).2 = none ∧
    moduleGetSize (moduleGetValue
        (moduleSetValue [] "icon:mdi:home" "v" (some 10) 0)
        "icon:mdi:home" 11).1 + "v".length
      = moduleGetSize (moduleSetValue [] "icon:mdi:home" "v" (some 10) 0) ∧
    (∀ (s2 : NativeStore String) (now4 now5 : Int),
      (moduleGetValue (moduleSetValue s2 "icon:mdi:home" "v" none now4)
        "icon:mdi:home" now5).2 = some "v") :=
  c7_ttl_roundtrip [] "icon:mdi:home" "v" 10 0 5 11
    (by decide) (by decide) (by decide)

/-! ### Claim C9 — cancellation discards caller-visible effects -/

/-- C9: for a resolution of a non-bundled identifier whose caller abandons it
(the `cancelled` flag is set before the corresponding check), no
caller-visible side effect is applied after the abandonment: the phase-1
checks see no state update or `onLoad` when the flag was set during the cache
read, the phase-2 checks see no state update, `onLoad` or `onError` when the
flag was set by the time the network result arrived, and no error is
surfaced; yet a fetch that completes anyway still writes its result into the
persistent cache, where a future read finds it. -/
theorem c9_cancellation_discards_effects
    (bundled : List (String × IconData)) (store : NativeStore StoredVal)
    (net : Except ErrorCode IconData) (name : String) (now : Int)
    (gf sf c1 c2 : Bool)
    (hb : bundled.lookup name = none)
    (hmono : c1 = true → c2 = true) :
    (c1 = true →
      (iconifyLoad bundled store net name now gf sf c1 c2).p1StateUpdates = 0 ∧
      (iconifyLoad bundled store net name now gf sf c1 c2).p1LoadCalls = 0) ∧
    (c2 = true →
      (iconifyLoad bundled store net name now gf sf c1 c2).p2StateUpdates = 0 ∧
      (iconifyLoad bundled store net name now gf sf c1 c2).p2LoadCalls = 0 ∧
      (iconifyLoad bundled store net name now gf sf c1 c2).p2ErrorCalls = 0 ∧
      (iconifyLoad bundled store net name now gf sf c1 c2).errorSurfaced = false) ∧
    (∀ (d : IconData) (now2 : Int), c1 = true → net = .ok d → sf = false →
      (moduleGetValue (iconifyLoad bundled store net name now gf sf c1 c2).store
        (componentCacheKey name) now2).2 = some (.good d)) := by
  rcases htc : turboCacheGet store (componentCacheKey name) now gf with ⟨s1, r⟩
  refine ⟨?_, ?_, ?_⟩
  · intro h1
    subst h1
    have h2 := hmono rfl
    subst h2
    cases r <;> cases net <;> cases sf <;> simp [iconifyLoad, hb, htc]
  · intro h2
    subst h2
    cases c1 <;> cases r <;> cases net <;> cases sf <;>
      simp [iconifyLoad, hb, htc]
  · intro d now2 h1 hnet hsf
    subst h1
    subst hnet
    subst hsf
    have h2 := hmono rfl
    subst h2
    cases r <;> simp [iconifyLoad, hb, htc, moduleGetValue_set_none]

/-- C9 witness: an abandoned cold resolution whose fetch succeeds — no
visible effects, but the cache holds the result for future callers. -/
theorem c9_cancellation_discards_effects_witness :
    ((true : Bool) = true →
      (iconifyLoad [] [] (.ok sampleIcon) "mdi:home" 0 false false true true).p1StateUpdates = 0 ∧
      (iconifyLoad [] [] (.ok sampleIcon) "mdi:home" 0 false false true true).p1LoadCalls = 0) ∧
    ((true : Bool) = true →
      (iconifyLoad [] [] (.ok sampleIcon) "mdi:home" 0 false false true true).p2StateUpdates = 0 ∧
      (iconifyLoad [] [] (.ok sampleIcon) "mdi:home" 0 false false true true).p2LoadCalls = 0 ∧
      (iconifyLoad [] [] (.ok sampleIcon) "mdi:home" 0 false false true true).p2ErrorCalls = 0 ∧
      (iconifyLoad [] [] (.ok sampleIcon) "mdi:home" 0 false false true true).errorSurfaced = false) ∧
    (∀ (d : IconData) (now2 : Int), (true : Bool) = true →
      (Except.ok sampleIcon : Except ErrorCode IconData) = .ok d →
      (false : Bool) = false →
      (moduleGetValue
        (iconifyLoad [] [] (.ok sampleIcon) "mdi:home" 0 false false true true).store
        (componentCacheKey "mdi:home") now2).2 = some (.good d)) :=
  c9_cancellation_discards_effects [] [] (.ok sampleIcon) "mdi:home" 0
    false false true true rfl (fun _ => rfl)

/-! ### Claim C8 — the scanner has no component-reference filter -/

/-- C8, counterexample: the scanner reports `mdi:home` from a file that
neither names `IconifyIcon` nor any iconify module path — files without a
component reference are NOT skipped; any icon-shaped literal with a known
prefix is collected. -/
theorem c8_counterexample :
    "mdi:home" ∈ scanProjectIcons [("src/App.ts", c8File)] ∧
    ¬ ("IconifyIcon".data <:+: c8File.data) ∧
    ¬ ("Iconify".data <:+: c8File.data) ∧
    ¬ ("iconify".data <:+: c8File.data) ∧
    ¬ ("react-native-iconify".data <:+: c8File.data) := by
  decide

/-- `addIcon` never removes elements. -/
theorem mem_addIcon_of_mem (acc : List String) (i x : String) (h : x ∈ acc) :
    x ∈ addIcon acc i := by
  unfold addIcon
  split
  · exact h
  · exact List.mem_append_left _ h

/-- Folding `addIcon` never removes elements. -/
theorem mem_foldl_addIcon_of_mem (l : List String) (acc : List String)
    (x : String) (h : x ∈ acc) : x ∈ l.foldl addIcon acc := by
  induction l generalizing acc with
  | nil => exact h
  | cons a t ih => exact ih (addIcon acc a) (mem_addIcon_of_mem acc a x h)

/-- Inserting `x` makes it a member. -/
theorem mem_addIcon_self (acc : List String) (x : String) :
    x ∈ addIcon acc x := by
  unfold addIcon
  split
  · next h => simpa using h
  · simp

/-- Folding `addIcon` inserts every element of the list. -/
theorem mem_foldl_addIcon_of_mem_list (l : List String) (acc : List String)
    (x : String) (h : x ∈ l) : x ∈ l.foldl addIcon acc := by
  induction l generalizing acc with
  | nil => cases h
  | cons a t ih =>
    rcases List.mem_cons.mp h with rfl | hx
    · exact mem_foldl_addIcon_of_mem t (addIcon acc x) x (mem_addIcon_self acc x)
    · exact ih (addIcon acc a) hx

/-- The per-file step of `scanProjectIcons` never removes elements. -/
theorem mem_scanStep_of_mem (f : String × String) (acc : List String)
    (x : String) (h : x ∈ acc) :
    x ∈ (if hasScanExt f.1 && !shouldIgnore f.1 then
          (extractIconNames f.2).foldl addIcon acc
        else acc) := by
  split
  · exact mem_foldl_addIcon_of_mem _ _ _ h
  · exact h

/-- The fold of `scanProjectIcons` never removes elements. -/
theorem mem_scanFold_of_mem (files : List (String × String))
    (acc : List String) (x : String) (h : x ∈ acc) :
    x ∈ files.foldl
      (fun acc f =>
        if hasScanExt f.1 && !shouldIgnore f.1 then
          (extractIconNames f.2).foldl addIcon acc
        else acc)
      acc := by
  induction files generalizing acc with
  | nil => exact h
  | cons f t ih => exact ih _ (mem_scanStep_of_mem f acc x h)

/-- The fold of `scanProjectIcons` collects every identifier of every
qualifying file, from any starting accumulator. -/
theorem mem_scanFold_of_file (files : List (String × String))
    (acc : List String) (path content icon : String)
    (hmem : (path, content) ∈ files)
    (hext : hasScanExt path = true)
    (hign : shouldIgnore path = false)
    (hicon : icon ∈ extractIconNames content) :
    icon ∈ files.foldl
      (fun acc f =>
        if hasScanExt f.1 && !shouldIgnore f.1 then
          (extractIconNames f.2).foldl addIcon acc
        else acc)
      acc := by
  induction files generalizing acc with
  | nil => cases hmem
  | cons f t ih =>
    rcases List.mem_cons.mp hmem with hf | hrest
    · have hstep :
          (if hasScanExt f.1 && !shouldIgnore f.1 then
            (extractIconNames f.2).foldl addIcon acc
          else acc) =
          (extractIconNames content).foldl addIcon acc := by
        rw [← hf]
        simp [hext, hign]
      simp only [List.foldl_cons, hstep]
      exact mem_scanFold_of_mem t _ icon
        (mem_foldl_addIcon_of_mem_list _ _ _ hicon)
    · simp only [List.foldl_cons]
      exact ih _ hrest

/-- C8, amended: the scanner applies no component-reference filter — for
EVERY file of the project whose path has a scanned extension and is not
ignored, every identifier extracted from its text (a function of the text
alone) appears in the scanner's output, regardless of whether the file
imports or references the rendering component. -/
theorem c8_no_reference_filter
    (files : List (String × String)) (path content icon : String)
    (hmem : (path, content) ∈ files)
    (hext : hasScanExt path = true)
    (hign : shouldIgnore path = false)
    (hicon : icon ∈ extractIconNames content) :
    icon ∈ scanProjectIcons files :=
  mem_scanFold_of_file files [] path content icon hmem hext hign hicon

/-- C8 witness: the amended theorem at the counterexample project. -/
theorem c8_no_reference_filter_witness :
    "mdi:home" ∈ scanProjectIcons [("src/App.ts", c8File)] :=
  c8_no_reference_filter [("src/App.ts", c8File)] "src/App.ts" c8File
    "mdi:home" (by decide) (by decide) (by decide) (by decide)


/-! ### Claim C10 — the in-memory LRU cache invariant

Association-list lemmas for the `Map` model, then the invariant. -/

theorem lookup_cons_eq {β : Type} (a : String) (b : β) (t : List (String × β)) :
    List.lookup a ((a, b) :: t) = some b := by
  simp [List.lookup]

theorem lookup_cons_ne {β : Type} (a k : String) (b : β) (t : List (String × β))
    (h : ¬ k = a) : List.lookup k ((a, b) :: t) = List.lookup k t := by
  have hbeq : (k == a) = false := by simpa using h
  simp [List.lookup, hbeq]

theorem mapDelete_cons {β : Type} (a : String) (b : β) (t : List (String × β)) (k : String) :
    mapDelete ((a, b) :: t) k =
      if a = k then mapDelete t k else (a, b) :: mapDelete t k := by
  by_cases h : a = k
  · simp [mapDelete, List.filter_cons, h]
  · simp [mapDelete, List.filter_cons, h]

theorem lookup_isSome_iff_keys {β : Type} (l : List (String × β)) (k : String) :
    (l.lookup k).isSome ↔ k ∈ l.map Prod.fst := by
  induction l with
  | nil => simp [List.lookup]
  | cons p t ih =>
    rcases p with ⟨a, b⟩
    by_cases h : k = a
    · subst h
      simp [lookup_cons_eq]
    · rw [lookup_cons_ne a k b t h]
      simp [h, ih]

theorem lookup_mapDelete {β : Type} (l : List (String × β)) (k k' : String) :
    (mapDelete l k).lookup k' = if k' = k then none else l.lookup k' := by
  induction l with
  | nil => simp [mapDelete, List.lookup]
  | cons p t ih =>
    rcases p with ⟨a, b⟩
    rw [mapDelete_cons]
    by_cases hak : a = k
    · subst hak
      rw [if_pos rfl]
      by_cases hk' : k' = a
      · subst hk'
        simp [ih]
      · rw [ih, if_neg hk', if_neg hk', lookup_cons_ne a k' b t hk']
    · rw [if_neg hak]
      by_cases hk' : k' = a
      · subst hk'
        rw [lookup_cons_eq, if_neg hak, lookup_cons_eq]
      · rw [lookup_cons_ne a k' b (mapDelete t k) hk', ih,
          lookup_cons_ne a k' b t hk']

theorem keys_mapDelete {β : Type} (l : List (String × β)) (k : String) :
    (mapDelete l k).map Prod.fst = (l.map Prod.fst).filter (fun x => x ≠ k) := by
  induction l with
  | nil => simp [mapDelete]
  | cons p t ih =>
    rcases p with ⟨a, b⟩
    rw [mapDelete_cons]
    by_cases h : a = k
    · simp [h, ih]
    · simp [h, ih]

theorem mapDelete_eq_self {β : Type} (l : List (String × β)) (k : String)
    (h : k ∉ l.map Prod.fst) : mapDelete l k = l := by
  unfold mapDelete
  rw [List.filter_eq_self]
  intro p hp
  have hne : p.1 ≠ k := fun hc => h (hc ▸ List.mem_map_of_mem Prod.fst hp)
  simpa using hne

theorem length_mapDelete_of_lookup {β : Type} (l : List (String × β)) (k : String)
    (hnd : (l.map Prod.fst).Nodup) (h : (l.lookup k).isSome) :
    (mapDelete l k).length + 1 = l.length := by
  induction l with
  | nil => simp [List.lookup] at h
  | cons p t ih =>
    rcases p with ⟨a, b⟩
    rw [List.map_cons, List.nodup_cons] at hnd
    rw [mapDelete_cons]
    by_cases hak : a = k
    · subst hak
      rw [if_pos rfl, mapDelete_eq_self t a hnd.1]
      simp
    · rw [if_neg hak]
      rw [lookup_cons_ne a k b t (Ne.symm hak)] at h
      simp only [List.length_cons]
      rw [← ih hnd.2 h]

theorem lookup_map_replace_ne {β : Type} (l : List (String × β)) (k : String)
    (v : β) (k' : String) (hk' : ¬ k' = k) :
    ((l.map fun p => if p.1 = k then (k, v) else p).lookup k') = l.lookup k' := by
  induction l with
  | nil => simp
  | cons p t ih =>
    rcases p with ⟨a, b⟩
    by_cases hak : a = k
    · subst hak
      have hrepl : (if (a, b).1 = a then (a, v) else (a, b)) = (a, v) := if_pos rfl
      rw [List.map_cons, hrepl, lookup_cons_ne a k' v _ hk', ih,
        lookup_cons_ne a k' b t hk']
    · simp only [List.map_cons, if_neg hak]
      by_cases hk'a : k' = a
      · subst hk'a
        rw [lookup_cons_eq, lookup_cons_eq]
      · rw [lookup_cons_ne a k' b _ hk'a, ih, lookup_cons_ne a k' b t hk'a]

theorem lookup_map_replace_eq {β : Type} (l : List (String × β)) (k : String)
    (v : β) (hp : (l.lookup k).isSome) :
    ((l.map fun p => if p.1 = k then (k, v) else p).lookup k) = some v := by
  induction l with
  | nil => simp [List.lookup] at hp
  | cons p t ih =>
    rcases p with ⟨a, b⟩
    by_cases hak : a = k
    · subst hak
      have hrepl : (if (a, b).1 = a then (a, v) else (a, b)) = (a, v) := if_pos rfl
      rw [List.map_cons, hrepl, lookup_cons_eq]
    · have hrepl : (if (a, b).1 = k then (k, v) else (a, b)) = (a, b) := if_neg hak
      rw [lookup_cons_ne a k b t (Ne.symm hak)] at hp
      rw [List.map_cons, hrepl, lookup_cons_ne a k b _ (Ne.symm hak), ih hp]

theorem lookup_append_single {β : Type} (l : List (String × β)) (k : String)
    (v : β) (k' : String) :
    ((l ++ [(k, v)]).lookup k') =
      (l.lookup k').or (if k' = k then some v else none) := by
  induction l with
  | nil =>
    by_cases hk' : k' = k
    · subst hk'
      rw [List.nil_append, lookup_cons_eq]
      simp [List.lookup]
    · rw [List.nil_append, lookup_cons_ne k k' v [] hk']
      simp [List.lookup, hk']
  | cons p t ih =>
    rcases p with ⟨a, b⟩
    by_cases hk'a : k' = a
    · subst hk'a
      rw [List.cons_append, lookup_cons_eq, lookup_cons_eq]
      rfl
    · rw [List.cons_append, lookup_cons_ne a k' b _ hk'a,
        lookup_cons_ne a k' b t hk'a, ih]


theorem lookup_mapSet {β : Type} (l : List (String × β)) (k : String) (v : β)
    (k' : String) :
    (mapSet l k v).lookup k' = if k' = k then some v else l.lookup k' := by
  unfold mapSet
  by_cases hp : (l.lookup k).isSome
  · rw [if_pos hp]
    by_cases hk' : k' = k
    · subst hk'
      rw [lookup_map_replace_eq l k' v hp, if_pos rfl]
    · rw [lookup_map_replace_ne l k v k' hk', if_neg hk']
  · rw [if_neg hp, lookup_append_single]
    by_cases hk' : k' = k
    · subst hk'
      rw [if_pos rfl, if_pos rfl]
      rw [Option.not_isSome_iff_eq_none] at hp
      rw [hp]
      rfl
    · rw [if_neg hk', if_neg hk', Option.or_none]

theorem keys_map_replace {β : Type} (l : List (String × β)) (k : String) (v : β) :
    ((l.map fun p => if p.1 = k then (k, v) else p).map Prod.fst) =
      l.map Prod.fst := by
  induction l with
  | nil => rfl
  | cons p t ih =>
    rcases p with ⟨a, b⟩
    by_cases hak : a = k
    · subst hak
      have hrepl : (if (a, b).1 = a then (a, v) else (a, b)) = (a, v) := if_pos rfl
      rw [List.map_cons, hrepl, List.map_cons, List.map_cons, ih]
    · have hrepl : (if (a, b).1 = k then (k, v) else (a, b)) = (a, b) := if_neg hak
      rw [List.map_cons, hrepl, List.map_cons, List.map_cons, ih]

theorem keys_mapSet_present {β : Type} (l : List (String × β)) (k : String)
    (v : β) (hp : (l.lookup k).isSome) :
    (mapSet l k v).map Prod.fst = l.map Prod.fst := by
  rw [mapSet, if_pos hp, keys_map_replace]

theorem keys_mapSet_absent {β : Type} (l : List (String × β)) (k : String)
    (v : β) (hp : ¬ (l.lookup k).isSome) :
    (mapSet l k v).map Prod.fst = l.map Prod.fst ++ [k] := by
  rw [mapSet, if_neg hp]
  simp

theorem length_mapSet_present {β : Type} (l : List (String × β)) (k : String)
    (v : β) (hp : (l.lookup k).isSome) :
    (mapSet l k v).length = l.length := by
  rw [mapSet, if_pos hp, List.length_map]

theorem length_mapSet_absent {β : Type} (l : List (String × β)) (k : String)
    (v : β) (hp : ¬ (l.lookup k).isSome) :
    (mapSet l k v).length = l.length + 1 := by
  rw [mapSet, if_neg hp]
  simp

/-- Moving `k` to the back of a duplicate-free list keeps it duplicate-free. -/
theorem nodup_erase_append_singleton (l : List String) (k : String)
    (hnd : l.Nodup) : (l.erase k ++ [k]).Nodup := by
  rw [List.nodup_append]
  refine ⟨hnd.erase k, List.nodup_singleton k, ?_⟩
  intro a ha hb
  rw [List.mem_singleton] at hb
  subst hb
  exact ((hnd.mem_erase_iff).mp ha).1 rfl

/-- Membership after moving `k` to the back of a duplicate-free list. -/
theorem mem_erase_append_singleton (l : List String) (k k' : String)
    (hnd : l.Nodup) : k' ∈ l.erase k ++ [k] ↔ k' = k ∨ k' ∈ l := by
  rw [List.mem_append, List.mem_singleton, hnd.mem_erase_iff]
  constructor
  · rintro (⟨_, h⟩ | h)
    · exact Or.inr h
    · exact Or.inl h
  · rintro (h | h)
    · exact Or.inr h
    · by_cases hk : k' = k
      · exact Or.inr hk
      · exact Or.inl ⟨hk, h⟩

/-- The `set` operation of `MemoryCache` preserves the representation
invariant, keeps the entry count within `maxSize`, and leaves the written key
at the most-recently-used position. -/
theorem memSet_WF {α : Type} (st : MemoryCache α) (k : String) (v : α) (ttl : Option Int)
    (now : Int) (hwf : MemWF st) (hmax : 1 ≤ st.maxSize)
    (hle : st.cache.length ≤ st.maxSize) :
    MemWF (memSet st k v ttl now) ∧
    (memSet st k v ttl now).cache.length ≤ st.maxSize ∧
    (memSet st k v ttl now).accessOrder.getLast? = some k := by
  obtain ⟨hndO, hndK, hiff⟩ := hwf
  by_cases hcond : st.maxSize ≤ st.cache.length ∧ (st.cache.lookup k).isNone
  · -- eviction path: the key is new and the cache is full
    obtain ⟨hfull, habs⟩ := hcond
    have habs' : st.cache.lookup k = none := Option.isNone_iff_eq_none.mp habs
    -- the access order is non-empty
    obtain ⟨o, rest, hord⟩ : ∃ o rest, st.accessOrder = o :: rest := by
      rcases hc : st.cache with _ | ⟨⟨a, b⟩, t⟩
      · rw [hc] at hfull
        simp at hfull
        omega
      · have ha : a ∈ st.accessOrder := by
          rw [hiff a, hc, lookup_cons_eq]
          rfl
        rcases ho : st.accessOrder with _ | ⟨o, rest⟩
        · rw [ho] at ha
          cases ha
        · exact ⟨o, rest, rfl⟩
    have hoO : o ∈ st.accessOrder := by rw [hord]; exact List.mem_cons_self o rest
    have hoSome : (st.cache.lookup o).isSome := (hiff o).mp hoO
    have hko : ¬ k = o := fun hh => by
      rw [← hh, habs'] at hoSome
      cases hoSome
    have hrestnd : rest.Nodup := by
      rw [hord] at hndO
      exact (List.nodup_cons.mp hndO).2
    have honotin : o ∉ rest := by
      rw [hord] at hndO
      exact (List.nodup_cons.mp hndO).1
    have hkrest : k ∉ rest := by
      intro hk
      have : k ∈ st.accessOrder := by rw [hord]; exact List.mem_cons_of_mem o hk
      have := (hiff k).mp this
      rw [habs'] at this
      cases this
    -- the state after eviction
    have hkdel : (mapDelete st.cache o).lookup k = none := by
      rw [lookup_mapDelete, habs']
      split <;> rfl
    have hkdel' : ¬ ((mapDelete st.cache o).lookup k).isSome := by
      rw [hkdel]
      simp
    have hset : memSet st k v ttl now =
        { cache := mapDelete st.cache o ++
            [(k, ⟨v, now, match ttl with
                          | none => st.defaultTTL
                          | some t => if t = 0 then st.defaultTTL else some t⟩)]
          accessOrder := rest ++ [k]
          maxSize := st.maxSize, defaultTTL := st.defaultTTL } := by
      unfold memSet evictOldest
      rw [if_pos ⟨hfull, habs⟩, hord]
      simp only
      rw [mapSet, if_neg hkdel', List.erase_of_not_mem hkrest]
    rw [hset]
    refine ⟨⟨?_, ?_, ?_⟩, ?_, ?_⟩
    · -- access order nodup
      rw [List.nodup_append]
      refine ⟨hrestnd, List.nodup_singleton k, ?_⟩
      intro a ha hb
      rw [List.mem_singleton] at hb
      subst hb
      exact hkrest ha
    · -- keys nodup
      rw [List.map_append, keys_mapDelete]
      rw [List.nodup_append]
      refine ⟨(hndK.filter _), by simp, ?_⟩
      intro a ha hb
      simp at hb
      subst hb
      have : a ∈ st.cache.map Prod.fst := List.mem_of_mem_filter ha
      have := (lookup_isSome_iff_keys st.cache a).mpr this
      rw [habs'] at this
      cases this
    · -- membership
      intro k'
      rw [List.mem_append, List.mem_singleton, lookup_append_single,
        lookup_mapDelete]
      constructor
      · rintro (hk' | hk')
        · have hk'O : k' ∈ st.accessOrder := by
            rw [hord]; exact List.mem_cons_of_mem o hk'
          have hk'ne : ¬ k' = o := fun hh => honotin (hh ▸ hk')
          have hs' : (st.cache.lookup k').isSome := (hiff k').mp hk'O
          rw [if_neg hk'ne]
          rcases hs : st.cache.lookup k' with _ | b
          · rw [hs] at hs'; cases hs'
          · rfl
        · subst hk'
          rw [if_neg hko, habs']
          simp
      · intro hsome
        by_cases hk' : k' = k
        · exact Or.inr hk'
        · left
          rw [if_neg hk', Option.or_none] at hsome
          by_cases hk'o : k' = o
          · rw [if_pos hk'o] at hsome
            cases hsome
          · rw [if_neg hk'o] at hsome
            have : k' ∈ st.accessOrder := (hiff k').mpr hsome
            rw [hord] at this
            rcases List.mem_cons.mp this with hh | hh
            · exact absurd hh hk'o
            · exact hh
    · -- length bound
      rw [List.length_append]
      have := length_mapDelete_of_lookup st.cache o hndK hoSome
      simp only [List.length_cons, List.length_nil]
      omega
    · -- MRU position
      exact List.getLast?_concat _
  · -- no eviction
    have hset : memSet st k v ttl now =
        { cache := mapSet st.cache k ⟨v, now, match ttl with
                          | none => st.defaultTTL
                          | some t => if t = 0 then st.defaultTTL else some t⟩
          accessOrder := st.accessOrder.erase k ++ [k]
          maxSize := st.maxSize, defaultTTL := st.defaultTTL } := by
      unfold memSet
      rw [if_neg hcond]
    rw [hset]
    by_cases hk : (st.cache.lookup k).isSome
    · have hkO : k ∈ st.accessOrder := (hiff k).mpr hk
      refine ⟨⟨?_, ?_, ?_⟩, ?_, ?_⟩
      · exact nodup_erase_append_singleton _ _ hndO
      · rw [keys_mapSet_present st.cache k _ hk]
        exact hndK
      · intro k'
        rw [mem_erase_append_singleton _ _ _ hndO, lookup_mapSet]
        by_cases hk' : k' = k
        · simp [hk', hk]
        · simp [hk', hiff k']
      · rw [length_mapSet_present st.cache k _ hk]
        exact hle
      · exact List.getLast?_concat _
    · have hkO : k ∉ st.accessOrder := fun hh => hk ((hiff k).mp hh)
      have hlt : st.cache.length < st.maxSize := by
        by_contra hcontra
        push_neg at hcontra
        exact hcond ⟨hcontra, Option.isNone_iff_eq_none.mpr
          (Option.not_isSome_iff_eq_none.mp hk)⟩
      refine ⟨⟨?_, ?_, ?_⟩, ?_, ?_⟩
      · exact nodup_erase_append_singleton _ _ hndO
      · rw [keys_mapSet_absent st.cache k _ hk, List.nodup_append]
        refine ⟨hndK, by simp, ?_⟩
        intro a ha hb
        rw [List.mem_singleton] at hb
        subst hb
        exact hk ((lookup_isSome_iff_keys st.cache a).mpr ha)
      · intro k'
        rw [mem_erase_append_singleton _ _ _ hndO, lookup_mapSet]
        by_cases hk' : k' = k
        · simp [hk']
        · simp [hk', hiff k']
      · rw [length_mapSet_absent st.cache k _ hk]
        omega
      · exact List.getLast?_concat _

/-- When a new key is written at capacity, the evicted key is exactly the
front of the access order (the least recently used), and every other key's
entry is untouched. -/
theorem memSet_evicts_lru {α : Type} (st : MemoryCache α) (k : String) (v : α)
    (ttl : Option Int) (now : Int) (hwf : MemWF st)
    (habs : st.cache.lookup k = none)
    (hfull : st.maxSize ≤ st.cache.length)
    (o : String) (rest : List String) (hord : st.accessOrder = o :: rest) :
    (memSet st k v ttl now).cache.lookup o = none ∧
    (∀ k', ¬ k' = o → ¬ k' = k →
      (memSet st k v ttl now).cache.lookup k' = st.cache.lookup k') := by
  obtain ⟨hndO, hndK, hiff⟩ := hwf
  have hoO : o ∈ st.accessOrder := by rw [hord]; exact List.mem_cons_self o rest
  have hoSome : (st.cache.lookup o).isSome := (hiff o).mp hoO
  have hko : ¬ k = o := fun hh => by
    rw [← hh, habs] at hoSome
    cases hoSome
  have hkrest : k ∉ rest := by
    intro hk
    have : k ∈ st.accessOrder := by rw [hord]; exact List.mem_cons_of_mem o hk
    have := (hiff k).mp this
    rw [habs] at this
    cases this
  have hkdel' : ¬ ((mapDelete st.cache o).lookup k).isSome := by
    rw [lookup_mapDelete, if_neg hko, habs]
    simp
  have hset : memSet st k v ttl now =
      { cache := mapDelete st.cache o ++
          [(k, ⟨v, now, match ttl with
                        | none => st.defaultTTL
                        | some t => if t = 0 then st.defaultTTL else some t⟩)]
        accessOrder := rest ++ [k]
        maxSize := st.maxSize, defaultTTL := st.defaultTTL } := by
    unfold memSet evictOldest
    rw [if_pos ⟨hfull, Option.isNone_iff_eq_none.mpr habs⟩, hord]
    simp only
    rw [mapSet, if_neg hkdel', List.erase_of_not_mem hkrest]
  rw [hset]
  constructor
  · simp only
    rw [lookup_append_single, lookup_mapDelete, if_pos rfl,
      if_neg (fun hh => hko hh.symm)]
    rfl
  · intro k' hk'o hk'k
    simp only
    rw [lookup_append_single, lookup_mapDelete, if_neg hk'o, if_neg hk'k,
      Option.or_none]

/-- The `get` operation preserves the representation invariant, never grows
the cache, and a hit moves the key to the most-recently-used position. -/
theorem memGet_WF {α : Type} (st : MemoryCache α) (k : String) (now : Int)
    (hwf : MemWF st) :
    MemWF (memGet st k now).1 ∧
    (memGet st k now).1.cache.length ≤ st.cache.length ∧
    (∀ d, (memGet st k now).2 = some d →
      (memGet st k now).1.accessOrder.getLast? = some k) := by
  obtain ⟨hndO, hndK, hiff⟩ := hwf
  rcases hl : st.cache.lookup k with _ | e
  · simp only [memGet, hl]
    exact ⟨⟨hndO, hndK, hiff⟩, le_refl _, fun d hd => by cases hd⟩
  · simp only [memGet, hl]
    by_cases hex : memIsExpired e now
    · rw [if_pos hex]
      refine ⟨⟨hndO.erase k, ?_, ?_⟩, ?_, fun d hd => by cases hd⟩
      · rw [keys_mapDelete]
        exact hndK.filter _
      · intro k'
        rw [hndO.mem_erase_iff, lookup_mapDelete]
        by_cases hk' : k' = k
        · simp [hk']
        · simp [hk', hiff k']
      · exact le_trans (List.length_filter_le _ _) (le_refl _)
    · rw [if_neg hex]
      have hkO : k ∈ st.accessOrder := (hiff k).mpr (by rw [hl]; rfl)
      refine ⟨⟨nodup_erase_append_singleton _ _ hndO, hndK, ?_⟩, le_refl _,
        fun d _ => List.getLast?_concat _⟩
      intro k'
      rw [mem_erase_append_singleton _ _ _ hndO]
      by_cases hk' : k' = k
      · subst hk'
        simp [hl]
      · simp [hk', hiff k']

/-- C10: the LRU invariant of `MemoryCache`.  From a well-formed state whose
entry count is within `maxSize` (with `maxSize ≥ 1`): `set` preserves
well-formedness, keeps the entry count within `maxSize`, and leaves the
written key most recently used; setting a NEW key while the cache is full
evicts exactly the front of the access order (the least recently used key)
and no other; and `get` preserves well-formedness, never grows the cache, and
a hit moves the key to the most-recently-used position. -/
theorem c10_memoryCache_lru {α : Type} (st : MemoryCache α) (k : String) (v : α)
    (ttl : Option Int) (now : Int) (hwf : MemWF st)
    (hmax : 1 ≤ st.maxSize) (hle : st.cache.length ≤ st.maxSize) :
    MemWF (memSet st k v ttl now) ∧
    (memSet st k v ttl now).cache.length ≤ st.maxSize ∧
    (memSet st k v ttl now).accessOrder.getLast? = some k ∧
    (st.cache.lookup k = none → st.maxSize ≤ st.cache.length →
      ∀ o rest, st.accessOrder = o :: rest →
        (memSet st k v ttl now).cache.lookup o = none ∧
        (∀ k', ¬ k' = o → ¬ k' = k →
          (memSet st k v ttl now).cache.lookup k' = st.cache.lookup k')) ∧
    MemWF (memGet st k now).1 ∧
    (memGet st k now).1.cache.length ≤ st.cache.length ∧
    (∀ d, (memGet st k now).2 = some d →
      (memGet st k now).1.accessOrder.getLast? = some k) := by
  obtain ⟨h1, h2, h3⟩ := memSet_WF st k v ttl now hwf hmax hle
  obtain ⟨g1, g2, g3⟩ := memGet_WF st k now hwf
  exact ⟨h1, h2, h3,
    fun habs hfull o rest hord =>
      memSet_evicts_lru st k v ttl now hwf habs hfull o rest hord,
    g1, g2, g3⟩

/-- C10 witness: writing a new key into a full one-entry cache evicts the
least-recently-used key `a` and keeps the count at `maxSize`. -/
theorem c10_memoryCache_lru_witness :
    MemWF (memSet c10State "b" 2 none 0) ∧
    (memSet c10State "b" 2 none 0).cache.length ≤ c10State.maxSize ∧
    (memSet c10State "b" 2 none 0).accessOrder.getLast? = some "b" ∧
    (c10State.cache.lookup "b" = none → c10State.maxSize ≤ c10State.cache.length →
      ∀ o rest, c10State.accessOrder = o :: rest →
        (memSet c10State "b" 2 none 0).cache.lookup o = none ∧
        (∀ k', ¬ k' = o → ¬ k' = "b" →
          (memSet c10State "b" 2 none 0).cache.lookup k' = c10State.cache.lookup k')) ∧
    MemWF (memGet c10State "b" 0).1 ∧
    (memGet c10State "b" 0).1.cache.length ≤ c10State.cache.length ∧
    (∀ d, (memGet c10State "b" 0).2 = some d →
      (memGet c10State "b" 0).1.accessOrder.getLast? = some "b") :=
  c10_memoryCache_lru c10State "b" 2 none 0
    ⟨by decide, by decide, fun k => by
      by_cases h : k = "a"
      · subst h
        simp [c10State, lookup_cons_eq]
      · constructor
        · intro hmem
          simp [c10State] at hmem
          exact absurd hmem h
        · intro hsome
          rw [show c10State.cache = [("a", ⟨1, 0, none⟩)] from rfl,
            lookup_cons_ne "a" k _ _ h] at hsome
          cases hsome⟩
    (by decide) (by decide)

end Iconify
